import Mathlib

/-!
Verification of the stream-JSON capture and schema-archive pipeline
(`test_sdk_tools.py` and `examine_schemas.py`).

The Python code is shallowly embedded:

* JSON values (the results of `json.loads`) are the inductive `JsonVal`;
  JSON numbers are modelled as `Int` (no claim involves floats).
* `json.loads` applied to a single output line is abstracted as a
  parameter `decode : String → Option JsonVal` (it is Python standard
  library code, not code of this repository); the only fact about it the
  theorems need — that a whitespace-only line is not valid JSON — is an
  explicit hypothesis.
* `subprocess.run` is abstracted as a `RunOutcome`: either a completed
  process (returncode, stdout, stderr) or a raised exception, which is
  what the `try`/`except` in `run_claude_command` distinguishes.
* The schemas directory is a flat association list from filename to the
  parsed JSON content of the file; `json.dump`/`json.load`
  (Python standard library, pretty-printing plus parsing) are treated as
  mutually inverse, so a file's content is stored as its `JsonVal`.
* Printing is modelled by returning the printed (label, value) pairs
  instead of writing to stdout.
-/

/-- A JSON value as produced by `json.loads`: objects keep field order,
numbers are modelled as integers. -/
inductive JsonVal where
  | null : JsonVal
  | bool : Bool → JsonVal
  | num : Int → JsonVal
  | str : String → JsonVal
  | arr : List JsonVal → JsonVal
  | obj : List (String × JsonVal) → JsonVal

mutual

/-- Structural equality of JSON values (Python `==` on parsed JSON). -/
def JsonVal.beq : JsonVal → JsonVal → Bool
  | .null, .null => true
  | .bool a, .bool b => a == b
  | .num a, .num b => a == b
  | .str a, .str b => a == b
  | .arr xs, .arr ys => JsonVal.beqList xs ys
  | .obj fs, .obj gs => JsonVal.beqFields fs gs
  | _, _ => false

/-- Equality of JSON arrays, elementwise. -/
def JsonVal.beqList : List JsonVal → List JsonVal → Bool
  | [], [] => true
  | x :: xs, y :: ys => JsonVal.beq x y && JsonVal.beqList xs ys
  | _, _ => false

/-- Equality of JSON object field lists, by key and value in order. -/
def JsonVal.beqFields :
    List (String × JsonVal) → List (String × JsonVal) → Bool
  | [], [] => true
  | (k, v) :: fs, (l, w) :: gs =>
      k == l && JsonVal.beq v w && JsonVal.beqFields fs gs
  | _, _ => false

end

mutual

theorem JsonVal.beq_iff : ∀ a b : JsonVal, JsonVal.beq a b = true ↔ a = b
  | a, b => by
    cases a <;> cases b <;>
      simp [JsonVal.beq, JsonVal.beqList_iff, JsonVal.beqFields_iff]

theorem JsonVal.beqList_iff :
    ∀ xs ys : List JsonVal, JsonVal.beqList xs ys = true ↔ xs = ys
  | [], [] => by simp [JsonVal.beqList]
  | [], _ :: _ => by simp [JsonVal.beqList]
  | _ :: _, [] => by simp [JsonVal.beqList]
  | x :: xs, y :: ys => by
    simp [JsonVal.beqList, JsonVal.beq_iff, JsonVal.beqList_iff]

theorem JsonVal.beqFields_iff :
    ∀ fs gs : List (String × JsonVal), JsonVal.beqFields fs gs = true ↔ fs = gs
  | [], [] => by simp [JsonVal.beqFields]
  | [], _ :: _ => by simp [JsonVal.beqFields]
  | _ :: _, [] => by simp [JsonVal.beqFields]
  | (k, v) :: fs, (l, w) :: gs => by
    simp [JsonVal.beqFields, JsonVal.beq_iff, JsonVal.beqFields_iff,
      and_assoc]

end

instance : DecidableEq JsonVal :=
  fun a b => decidable_of_iff (JsonVal.beq a b = true) (JsonVal.beq_iff a b)

/-- The characters removed by Python `str.strip()` (ASCII whitespace). -/
def pyIsSpace (c : Char) : Bool :=
  c = ' ' || c = '\t' || c = '\n' || c = '\r' || c = '\x0b' || c = '\x0c'

/-- Python `s.strip()`: remove leading and trailing whitespace. -/
def pyStrip (s : String) : String :=
  ⟨((s.data.dropWhile pyIsSpace).reverse.dropWhile pyIsSpace).reverse⟩

/-- `result.stdout.strip().split('\n')` from `run_claude_command`. -/
def pyLines (s : String) : List String :=
  (pyStrip s).splitOn "\n"

/-- What `subprocess.run(...)` returned in `run_claude_command`:
returncode, captured stdout and captured stderr. -/
structure CompletedProcess where
  returncode : Int
  stdout : String
  stderr : String
deriving DecidableEq

/-- The outcome of the `subprocess.run` call: either a completed process,
or an exception (carrying `str(e)`) raised while starting or running it. -/
inductive RunOutcome where
  | ok : CompletedProcess → RunOutcome
  | exc : String → RunOutcome
deriving DecidableEq

/-- The dictionary returned by `run_claude_command`. `stderr` and `error`
are `Option`s because the Python code returns dictionaries with different
key sets on the two paths: `{success, messages, stderr}` on normal
completion, `{success, error, messages}` when an exception was caught. -/
structure InvocationResult where
  success : Bool
  messages : List JsonVal
  stderr : Option String
  error : Option String
deriving DecidableEq

/-- The message-parsing loop of `run_claude_command`:
`for line in result.stdout.strip().split('\n'): if line.strip():
try: messages.append(json.loads(line)) except JSONDecodeError: continue`. -/
def parse_messages (decode : String → Option JsonVal) (stdout : String) :
    List JsonVal :=
  (pyLines stdout).filterMap fun line =>
    if (pyStrip line).isEmpty then none else decode line

/-- `run_claude_command` after the `subprocess.run` call, embedded over the
outcome of that call (`decode` stands for `json.loads` on one line). -/
def run_claude_command (decode : String → Option JsonVal)
    (outcome : RunOutcome) : InvocationResult :=
  match outcome with
  | .ok r =>
      { success := r.returncode == 0
        messages := parse_messages decode r.stdout
        stderr := some r.stderr
        error := none }
  | .exc e =>
      { success := false
        messages := []
        stderr := none
        error := some e }

/-- A concrete single-line decoder used to instantiate witnesses: accepts a
line consisting of digits (after stripping) as a JSON number. -/
def decodeNatLine (l : String) : Option JsonVal :=
  let t := pyStrip l
  if !t.isEmpty && t.data.all Char.isDigit then
    some (.num (t.data.foldl (fun a c => 10 * a + ((c.toNat : Int) - 48)) 0))
  else none

theorem decodeNatLine_blank (l : String) (h : pyStrip l = "") :
    decodeNatLine l = none := by
  simp [decodeNatLine, h]
  decide

/-- Python `message.get(key)` on a parsed JSON value: field lookup when the
value is an object, otherwise nothing (the code would raise, which the
callers model separately). -/
def jGet (j : JsonVal) (k : String) : Option JsonVal :=
  match j with
  | .obj fields => fields.lookup k
  | _ => none

/-- Python truthiness of a parsed JSON value (`if content:`,
`if data.get('stderr'):`). -/
def pyTruthy : JsonVal → Bool
  | .null => false
  | .bool b => b
  | .num n => n != 0
  | .str s => !s.isEmpty
  | .arr xs => !xs.isEmpty
  | .obj fs => !fs.isEmpty

mutual

/-- Python `str(...)` of a parsed JSON value, as used for the content
preview (`str(content)[:200]`). Escaping of quotes and control characters
inside strings is not modelled (no claim depends on it). -/
def pyRepr : JsonVal → String
  | .null => "None"
  | .bool true => "True"
  | .bool false => "False"
  | .num n => toString n
  | .str s => "\x27" ++ s ++ "\x27"
  | .arr xs => "[" ++ pyReprElems xs ++ "]"
  | .obj fs => "\x7b" ++ pyReprFields fs ++ "\x7d"

/-- Comma-separated `str(...)` of list elements. -/
def pyReprElems : List JsonVal → String
  | [] => ""
  | [x] => pyRepr x
  | x :: xs => pyRepr x ++ ", " ++ pyReprElems xs

/-- Comma-separated `str(...)` of dict items. -/
def pyReprFields : List (String × JsonVal) → String
  | [] => ""
  | [(k, v)] => "\x27" ++ k ++ "\x27: " ++ pyRepr v
  | (k, v) :: fs => "\x27" ++ k ++ "\x27: " ++ pyRepr v ++ ", " ++ pyReprFields fs

end

/-- Python `v[:200]` on a parsed JSON value: strings and lists are
sliceable, anything else raises `TypeError`. -/
def pySlice200 : JsonVal → Except String JsonVal
  | .str s => .ok (.str (s.take 200))
  | .arr xs => .ok (.arr (xs.take 200))
  | _ => .error "TypeError: value is not subscriptable"

/-- The per-message body of the loop in `examine_schema_file`, returning
the printed (label, value) pairs in print order, or the exception message
when the Python code would raise (caught by the enclosing `try`). The
`Message i+1` header line carries no data and is not modelled. -/
def summarizeMessage (m : JsonVal) : Except String (List (String × JsonVal)) :=
  match m with
  | .obj fields =>
    let base := [("Type", (fields.lookup "type").getD (.str "unknown"))] ++
      (match fields.lookup "subtype" with
       | some v => [("Subtype", v)]
       | none => [])
    if fields.lookup "type" = some (.str "system") ∧
        fields.lookup "subtype" = some (.str "init") then
      .ok (base ++
        [("Tools", (fields.lookup "tools").getD (.arr [])),
         ("Model", (fields.lookup "model").getD (.str "unknown")),
         ("Permission Mode",
          (fields.lookup "permissionMode").getD (.str "unknown"))])
    else if fields.lookup "type" = some (.str "assistant") then
      match fields.lookup "message" with
      | some (.obj inner) =>
          let content := (inner.lookup "content").getD (.arr [])
          if pyTruthy content then
            .ok (base ++ [("Content preview", .str ((pyRepr content).take 200))])
          else .ok base
      | some _ => .error "AttributeError: object has no attribute get"
      | none => .ok base
    else if fields.lookup "type" = some (.str "result") then
      let items := base ++
        [("Is Error", (fields.lookup "is_error").getD (.bool true)),
         ("Num Turns", (fields.lookup "num_turns").getD (.num 0)),
         ("Duration MS", (fields.lookup "duration_ms").getD (.num 0))]
      match fields.lookup "result" with
      | some v =>
          match pySlice200 v with
          | .ok v200 => .ok (items ++ [("Result preview", v200)])
          | .error e => .error e
      | none => .ok items
    else .ok base
  | _ => .error "AttributeError: object has no attribute get"

/-- The value printed under a given label when summarizing one message
(`none` when the label is not printed or the message summary raised). -/
def summaryLookup (m : JsonVal) (label : String) : Option JsonVal :=
  match summarizeMessage m with
  | .ok items => items.lookup label
  | .error _ => none

/-- The schemas directory as a flat association list from filename to the
parsed JSON content of that file. -/
abbrev SchemaDir := List (String × JsonVal)

/-- Whether a file with the given name exists in the directory. -/
def hasFile : SchemaDir → String → Bool
  | [], _ => false
  | (k, _) :: fs, name => if k = name then true else hasFile fs name

/-- How many directory entries carry the given name (a real directory
holds at most one; the well-formedness hypotheses state that). -/
def countFile : SchemaDir → String → Nat
  | [], _ => 0
  | (k, _) :: fs, name => (if k = name then 1 else 0) + countFile fs name

/-- Replace the content of every entry carrying the given name. -/
def overwriteFile : SchemaDir → String → JsonVal → SchemaDir
  | [], _, _ => []
  | (k, v) :: fs, name, content =>
      (if k = name then (name, content) else (k, v)) ::
        overwriteFile fs name content

/-- Writing a file with `open(filepath, 'w')`: a full overwrite of the
existing file with that name, or a new directory entry if none exists. -/
def writeFile (fs : SchemaDir) (name : String) (content : JsonVal) :
    SchemaDir :=
  if hasFile fs name then overwriteFile fs name content
  else fs ++ [(name, content)]

/-- Reading a file by name (`open(filepath, 'r')` plus `json.load`):
`none` when no such file exists. -/
def readFile : SchemaDir → String → Option JsonVal
  | [], _ => none
  | (k, v) :: fs, name => if k = name then some v else readFile fs name

/-- `save_schema(tool_name, schema_data)`: writes `schema_data` to the
file `f"{tool_name}_schema.json"` in the schemas directory
(`json.dump(schema_data, f, indent=2)` is the write). -/
def save_schema (fs : SchemaDir) (tool_name : String)
    (schema_data : JsonVal) : SchemaDir :=
  writeFile fs (tool_name ++ "_schema.json") schema_data

/-- The `schema_data` dictionary built by each `test_*` method of
`SDKToolTester`, i.e. the Archived Schema Record. -/
structure SchemaRecord where
  tool_name : String
  test_scenario : String
  success : Bool
  messages : List JsonVal
  stderr : String

/-- The JSON object written for a record: the literal dictionary
`{"tool_name": ..., "test_scenario": ..., "success": ...,
"messages": ..., "stderr": ...}` of the `test_*` methods. -/
def SchemaRecord.toJson (r : SchemaRecord) : JsonVal :=
  .obj [("tool_name", .str r.tool_name),
        ("test_scenario", .str r.test_scenario),
        ("success", .bool r.success),
        ("messages", .arr r.messages),
        ("stderr", .str r.stderr)]

/-- `Path("schemas").glob("*_schema.json")` applied to one filename:
the name matches when it ends with the literal suffix `_schema.json`
(`pathlib` glob, which does not special-case dotfiles). -/
def globMatch (name : String) : Bool :=
  ("_schema.json".data.reverse).isPrefixOf name.data.reverse

/-- `sorted(schema_files)`: insertion sort of the matched filenames by
lexicographic string order. -/
def sortNames : List String → List String
  | [] => []
  | n :: ns => insortName n (sortNames ns)
where
  /-- Insert one name into an already sorted list of names. -/
  insortName (n : String) : List String → List String
    | [] => [n]
    | m :: ms => if n ≤ m then n :: m :: ms else m :: insortName n ms

/-- The per-file output of `examine_schema_file`: the (label, value)
pairs printed for the record header, then for each message its printed
pairs; the count is `len(data.get('messages', []))`. -/
structure FileSummary where
  header : List (String × JsonVal)
  messageCount : Nat
  messageSummaries : List (List (String × JsonVal))

/-- The header prints of `examine_schema_file`: tool name, scenario and
success with their defaults, stderr only when truthy. -/
def headerItems (data : JsonVal) : List (String × JsonVal) :=
  [("Tool Name", (jGet data "tool_name").getD (.str "Unknown")),
   ("Test Scenario", (jGet data "test_scenario").getD (.str "Unknown")),
   ("Success", (jGet data "success").getD (.bool false))] ++
  (match jGet data "stderr" with
   | some v => if pyTruthy v then [("Stderr", v)] else []
   | none => [])

/-- `examine_schema_file` on the content of one file: `none` content
means the file could not be opened; a raised exception anywhere inside
the `try` is returned as the error string (the `except` clause prints
it as `Error reading ...`). -/
def examine_schema_file (content : Option JsonVal) :
    Except String FileSummary :=
  match content with
  | none => .error "FileNotFoundError"
  | some data =>
    match (jGet data "messages").getD (.arr []) with
    | .arr msgs =>
        match msgs.mapM summarizeMessage with
        | .ok summaries => .ok ⟨headerItems data, msgs.length, summaries⟩
        | .error e => .error e
    | _ => .error "TypeError: object has no len"

/-- The observable behaviour of the reporter `main()`: its exit code,
the plain messages it prints, and the per-file reports it produces in
the order it produces them. -/
structure ReporterRun where
  exitCode : Nat
  notices : List String
  reports : List (String × Except String FileSummary)

/-- The world `main()` of `examine_schemas.py` runs in: whether the
`schemas` directory exists, and the files inside it. -/
structure ReportWorld where
  dirExists : Bool
  files : SchemaDir

/-- `main()` of `examine_schemas.py`: missing directory reports a plain
message and returns (exit 0); otherwise glob `*_schema.json`, report when
empty, else summarize every matched file in sorted filename order. -/
def reporterMain (w : ReportWorld) : ReporterRun :=
  if w.dirExists = false then
    ⟨0, ["Schemas directory not found!"], []⟩
  else
    let schema_files := (w.files.map (·.1)).filter globMatch
    if schema_files.isEmpty then
      ⟨0, ["No schema files found!"], []⟩
    else
      ⟨0, ["Found " ++ toString schema_files.length ++ " schema files:"],
       (sortNames schema_files).map
         (fun n => (n, examine_schema_file (readFile w.files n)))⟩

/-! ### Helper lemmas -/

theorem parse_messages_eq_filterMap (decode : String → Option JsonVal)
    (hd : ∀ l, pyStrip l = "" → decode l = none) (L : List String) :
    (L.filterMap fun line =>
        if (pyStrip line).isEmpty then none else decode line) =
      L.filterMap decode := by
  induction L with
  | nil => rfl
  | cons a L ih =>
    by_cases h : (pyStrip a).isEmpty
    · have ha : pyStrip a = "" := (String.isEmpty_iff (pyStrip a)).mp h
      simp [List.filterMap_cons, h, hd a ha, ih]
    · simp [List.filterMap_cons, h, ih]

theorem length_filterMap_eq_length_filter {α β : Type} (f : α → Option β)
    (L : List α) :
    (L.filterMap f).length = (L.filter fun a => (f a).isSome).length := by
  induction L with
  | nil => rfl
  | cons a L ih =>
    cases h : f a <;> simp [List.filterMap_cons, List.filter_cons, h, ih]

/-! ### Claims about `run_claude_command` -/

/-- C1: for a completed subprocess, `messages` is exactly the ordered
`filterMap` of the line decoder over the output lines — each line that
decodes appears exactly once in original order, empty/whitespace-only and
undecodable lines are dropped — and its length is the number of lines on
which the decoder succeeds, not the raw line count. The hypothesis states
the one fact used about `json.loads`: a whitespace-only line is not valid
JSON. -/
theorem run_claude_command_messages_spec (decode : String → Option JsonVal)
    (hd : ∀ l, pyStrip l = "" → decode l = none) (r : CompletedProcess) :
    (run_claude_command decode (.ok r)).messages =
        (pyLines r.stdout).filterMap decode ∧
      (run_claude_command decode (.ok r)).messages.length =
        ((pyLines r.stdout).filter fun l => (decode l).isSome).length := by
  have h1 : (run_claude_command decode (.ok r)).messages =
      (pyLines r.stdout).filterMap decode := by
    show parse_messages decode r.stdout = _
    unfold parse_messages
    exact parse_messages_eq_filterMap decode hd (pyLines r.stdout)
  refine ⟨h1, ?_⟩
  rw [h1]
  exact length_filterMap_eq_length_filter decode (pyLines r.stdout)

theorem run_claude_command_messages_spec_witness :
    (run_claude_command decodeNatLine (.ok ⟨0, "1\n\nx\n2", ""⟩)).messages =
        (pyLines "1\n\nx\n2").filterMap decodeNatLine ∧
      (run_claude_command decodeNatLine
          (.ok ⟨0, "1\n\nx\n2", ""⟩)).messages.length =
        ((pyLines "1\n\nx\n2").filter fun l =>
          (decodeNatLine l).isSome).length :=
  run_claude_command_messages_spec decodeNatLine decodeNatLine_blank
    ⟨0, "1\n\nx\n2", ""⟩

/-- C2: on every completed run, `success` is true exactly when the exit
status is zero, and it depends only on the exit status — the captured
stdout (hence any JSON decode failure) and the decoder never change it. -/
theorem run_claude_command_success_spec (decode : String → Option JsonVal)
    (r : CompletedProcess) :
    ((run_claude_command decode (.ok r)).success = true ↔
        r.returncode = 0) ∧
      ∀ (decode' : String → Option JsonVal) (stdout' stderr' : String),
        (run_claude_command decode'
            (.ok ⟨r.returncode, stdout', stderr'⟩)).success =
          (run_claude_command decode (.ok r)).success := by
  constructor
  · simp [run_claude_command]
  · intro decode' stdout' stderr'
    simp [run_claude_command]

/-- C3: the embedded `run_claude_command` is a total function — every
exception raised while starting or running the subprocess is caught and
converted into a result with `success = false`, the exception text in
`error`, and an empty `messages` list; nothing propagates past the
function. -/
theorem run_claude_command_no_raise (decode : String → Option JsonVal)
    (e : String) :
    (run_claude_command decode (.exc e)).success = false ∧
      (run_claude_command decode (.exc e)).error = some e ∧
      (run_claude_command decode (.exc e)).messages = [] :=
  ⟨rfl, rfl, rfl⟩

/-- C5 counterexample: the result built on a launch failure has no
`stderr` entry at all (the Python dictionary on that path has only the
keys `success`, `error`, `messages`), so it is not a string as the claim
requires. -/
theorem run_claude_command_stderr_counterexample :
    (run_claude_command decodeNatLine (.exc "boom")).stderr = none :=
  rfl

/-- C5 amended: a result from a completed subprocess carries the captured
stderr text; the launch-failure result omits `stderr` entirely and
carries the exception text in `error` instead. -/
theorem run_claude_command_stderr_spec (decode : String → Option JsonVal)
    (p : CompletedProcess) (e : String) :
    (run_claude_command decode (.ok p)).stderr = some p.stderr ∧
      (run_claude_command decode (.exc e)).stderr = none ∧
      (run_claude_command decode (.exc e)).error = some e :=
  ⟨rfl, rfl, rfl⟩

/-! ### Claims about the reporter's per-message summary -/

/-- C4 counterexample: summarizing a `system`/`init` message with no
`tools`, `model` or `permissionMode` fields prints the empty list — not
the string `"unknown"` — as the advertised tool list, so not all three
fields default to the literal string `"unknown"`. -/
theorem summarize_init_tools_counterexample :
    summaryLookup
        (.obj [("type", JsonVal.str "system"),
               ("subtype", JsonVal.str "init")]) "Tools" =
        some (.arr []) ∧
      JsonVal.arr [] ≠ JsonVal.str "unknown" :=
  ⟨rfl, fun h => nomatch h⟩

/-- C4 amended: when a `system`/`init` message lacks the corresponding
fields, the model identifier and the permission mode default to the
literal string `"unknown"`, while the advertised tool list defaults to
the empty list. -/
theorem summarize_init_defaults (fields : List (String × JsonVal))
    (hty : fields.lookup "type" = some (.str "system"))
    (hsub : fields.lookup "subtype" = some (.str "init"))
    (htools : fields.lookup "tools" = none)
    (hmodel : fields.lookup "model" = none)
    (hperm : fields.lookup "permissionMode" = none) :
    summaryLookup (.obj fields) "Tools" = some (.arr []) ∧
      summaryLookup (.obj fields) "Model" = some (.str "unknown") ∧
      summaryLookup (.obj fields) "Permission Mode" =
        some (.str "unknown") := by
  simp [summaryLookup, summarizeMessage, hty, hsub, htools, hmodel, hperm,
    List.lookup]

theorem summarize_init_defaults_witness :
    summaryLookup
          (.obj [("type", JsonVal.str "system"),
                 ("subtype", JsonVal.str "init")]) "Tools" =
        some (.arr []) ∧
      summaryLookup
          (.obj [("type", JsonVal.str "system"),
                 ("subtype", JsonVal.str "init")]) "Model" =
        some (.str "unknown") ∧
      summaryLookup
          (.obj [("type", JsonVal.str "system"),
                 ("subtype", JsonVal.str "init")]) "Permission Mode" =
        some (.str "unknown") :=
  summarize_init_defaults
    [("type", .str "system"), ("subtype", .str "init")] rfl rfl rfl rfl rfl

/-- C8: summarizing a `result` message that lacks `is_error`, `num_turns`
and `duration_ms` reports is-error as `true`, the turn count as `0` and
the duration as `0`; a result-text preview is printed exactly when the
`result` field is present, truncated to its first 200 characters. -/
theorem summarize_result_defaults (fields : List (String × JsonVal))
    (hty : fields.lookup "type" = some (.str "result"))
    (hie : fields.lookup "is_error" = none)
    (hnt : fields.lookup "num_turns" = none)
    (hdm : fields.lookup "duration_ms" = none) :
    (fields.lookup "result" = none →
        summaryLookup (.obj fields) "Is Error" = some (.bool true) ∧
        summaryLookup (.obj fields) "Num Turns" = some (.num 0) ∧
        summaryLookup (.obj fields) "Duration MS" = some (.num 0) ∧
        summaryLookup (.obj fields) "Result preview" = none) ∧
      ∀ s : String, fields.lookup "result" = some (.str s) →
        summaryLookup (.obj fields) "Is Error" = some (.bool true) ∧
        summaryLookup (.obj fields) "Num Turns" = some (.num 0) ∧
        summaryLookup (.obj fields) "Duration MS" = some (.num 0) ∧
        summaryLookup (.obj fields) "Result preview" =
          some (.str (s.take 200)) := by
  constructor
  · intro hres
    cases hsub : fields.lookup "subtype" <;>
      simp [summaryLookup, summarizeMessage, hty, hie, hnt, hdm, hres, hsub,
        List.lookup]
  · intro s hres
    cases hsub : fields.lookup "subtype" <;>
      simp [summaryLookup, summarizeMessage, hty, hie, hnt, hdm, hres, hsub,
        pySlice200, List.lookup]

theorem summarize_result_defaults_witness :
    summaryLookup (.obj [("type", JsonVal.str "result")]) "Is Error" =
        some (.bool true) ∧
      summaryLookup (.obj [("type", JsonVal.str "result")]) "Num Turns" =
        some (.num 0) ∧
      summaryLookup (.obj [("type", JsonVal.str "result")]) "Duration MS" =
        some (.num 0) ∧
      summaryLookup (.obj [("type", JsonVal.str "result")])
          "Result preview" = none :=
  (summarize_result_defaults [("type", .str "result")]
    rfl rfl rfl rfl).1 rfl

/-! ### Claims about the archive -/

theorem readFile_overwriteFile (name : String) (c : JsonVal) :
    ∀ fs : SchemaDir, hasFile fs name = true →
      readFile (overwriteFile fs name c) name = some c := by
  intro fs
  induction fs with
  | nil => intro h; simp [hasFile] at h
  | cons p fs ih =>
    cases p with
    | mk k v =>
      intro h
      by_cases hp : k = name
      · subst hp
        simp only [overwriteFile, if_true]
        simp only [readFile, if_true]
      · have hhead : (if k = name then (name, c) else (k, v)) = (k, v) :=
          if_neg hp
        have h' : hasFile fs name = true := by
          simpa [hasFile, hp] using h
        simp only [overwriteFile]
        rw [hhead]
        simp only [readFile]
        rw [if_neg hp]
        exact ih h'

theorem readFile_append_new (name : String) (c : JsonVal) :
    ∀ fs : SchemaDir, hasFile fs name = false →
      readFile (fs ++ [(name, c)]) name = some c := by
  intro fs
  induction fs with
  | nil => intro _; simp [readFile]
  | cons p fs ih =>
    intro h
    by_cases hp : p.1 = name
    · simp [hasFile, hp] at h
    · have h' : hasFile fs name = false := by
        simpa [hasFile, hp] using h
      cases p with
      | mk k v => simpa [readFile, hp] using ih h'

theorem readFile_writeFile (fs : SchemaDir) (name : String) (c : JsonVal) :
    readFile (writeFile fs name c) name = some c := by
  unfold writeFile
  by_cases h : hasFile fs name
  · rw [if_pos h]; exact readFile_overwriteFile name c fs h
  · rw [if_neg h]
    exact readFile_append_new name c fs (by simpa using h)

theorem countFile_overwriteFile (name : String) (c : JsonVal) :
    ∀ fs : SchemaDir,
      countFile (overwriteFile fs name c) name = countFile fs name := by
  intro fs
  induction fs with
  | nil => rfl
  | cons p fs ih =>
    cases p with
    | mk k v =>
      by_cases hp : k = name
      · subst hp
        simp only [overwriteFile, if_true]
        simp only [countFile, if_true]
        rw [ih]
      · have hhead : (if k = name then (name, c) else (k, v)) = (k, v) :=
          if_neg hp
        simp only [overwriteFile]
        rw [hhead]
        simp only [countFile]
        rw [ih]

theorem countFile_append_new (name : String) (c : JsonVal) :
    ∀ fs : SchemaDir,
      countFile (fs ++ [(name, c)]) name = countFile fs name + 1 := by
  intro fs
  induction fs with
  | nil => simp [countFile]
  | cons p fs ih =>
    cases p with
    | mk k v => simp [countFile, ih]; omega

theorem countFile_writeFile (fs : SchemaDir) (name : String) (c : JsonVal) :
    countFile (writeFile fs name c) name =
      if hasFile fs name then countFile fs name else countFile fs name + 1 := by
  unfold writeFile
  by_cases h : hasFile fs name
  · rw [if_pos h, if_pos h]; exact countFile_overwriteFile name c fs
  · rw [if_neg h, if_neg h]; exact countFile_append_new name c fs

theorem hasFile_iff_countFile_pos (name : String) :
    ∀ fs : SchemaDir, hasFile fs name = true ↔ 0 < countFile fs name := by
  intro fs
  induction fs with
  | nil => simp [hasFile, countFile]
  | cons p fs ih =>
    cases p with
    | mk k v =>
      by_cases hp : k = name
      · subst hp
        simp [hasFile, countFile]
      · simpa [hasFile, countFile, hp] using ih

theorem name_mem_writeFile (fs : SchemaDir) (name : String) (c : JsonVal) :
    name ∈ (writeFile fs name c).map (·.1) := by
  unfold writeFile
  by_cases h : hasFile fs name
  · rw [if_pos h]
    induction fs with
    | nil => simp [hasFile] at h
    | cons p fs ih =>
      cases p with
      | mk k v =>
        by_cases hp : k = name
        · subst hp
          simp only [overwriteFile, if_true]
          simp
        · have hhead : (if k = name then (name, c) else (k, v)) = (k, v) :=
            if_neg hp
          have h' : hasFile fs name = true := by
            simpa [hasFile, hp] using h
          simp only [overwriteFile]
          rw [hhead]
          simp only [List.map_cons, List.mem_cons]
          exact Or.inr (ih h')
  · rw [if_neg h]
    simp

/-- C6: the round trip — writing a record with `save_schema` and reading
the stored file back for the same tool name yields the record's JSON
object, and every field of that object (tool name, scenario, success
flag, message list, stderr text) equals the field of the record that was
saved. -/
theorem save_schema_roundtrip (fs : SchemaDir) (t : String)
    (r : SchemaRecord) :
    readFile (save_schema fs t r.toJson) (t ++ "_schema.json") =
        some r.toJson ∧
      jGet r.toJson "tool_name" = some (.str r.tool_name) ∧
      jGet r.toJson "test_scenario" = some (.str r.test_scenario) ∧
      jGet r.toJson "success" = some (.bool r.success) ∧
      jGet r.toJson "messages" = some (.arr r.messages) ∧
      jGet r.toJson "stderr" = some (.str r.stderr) :=
  ⟨readFile_writeFile fs (t ++ "_schema.json") r.toJson,
   rfl, rfl, rfl, rfl, rfl⟩

/-- C7: saving two records in turn under one tool name leaves exactly one
file for that tool name — the write is a full overwrite — and reading it
back yields the second record's contents, given a well-formed directory
(at most one existing entry per filename). -/
theorem save_schema_overwrite (fs : SchemaDir) (t : String)
    (j1 j2 : JsonVal)
    (hwf : countFile fs (t ++ "_schema.json") ≤ 1) :
    countFile (save_schema (save_schema fs t j1) t j2)
        (t ++ "_schema.json") = 1 ∧
      readFile (save_schema (save_schema fs t j1) t j2)
        (t ++ "_schema.json") = some j2 := by
  refine ⟨?_, readFile_writeFile _ _ _⟩
  have h1 : countFile (save_schema fs t j1) (t ++ "_schema.json") = 1 := by
    rw [save_schema, countFile_writeFile]
    by_cases h : hasFile fs (t ++ "_schema.json")
    · rw [if_pos h]
      have := (hasFile_iff_countFile_pos (t ++ "_schema.json") fs).mp h
      omega
    · rw [if_neg h]
      have hz : ¬0 < countFile fs (t ++ "_schema.json") :=
        fun hpos => h ((hasFile_iff_countFile_pos _ fs).mpr hpos)
      omega
  have h2 : hasFile (save_schema fs t j1) (t ++ "_schema.json") = true :=
    (hasFile_iff_countFile_pos _ _).mpr (by omega)
  rw [save_schema, countFile_writeFile, if_pos h2, h1]

theorem save_schema_overwrite_witness :
    countFile
        (save_schema (save_schema [] "edit_tool" JsonVal.null) "edit_tool"
          (JsonVal.bool true)) ("edit_tool" ++ "_schema.json") = 1 ∧
      readFile
        (save_schema (save_schema [] "edit_tool" JsonVal.null) "edit_tool"
          (JsonVal.bool true)) ("edit_tool" ++ "_schema.json") =
        some (JsonVal.bool true) :=
  save_schema_overwrite [] "edit_tool" JsonVal.null (JsonVal.bool true)
    (by decide)

/-! ### Claims about the reporter's `main` -/

/-- C9: when the schemas directory does not exist, the reporter prints
only the explanatory message, scans and summarizes no files, and returns
normally (exit code 0). -/
theorem reporter_missing_dir (files : SchemaDir) :
    reporterMain ⟨false, files⟩ =
      ⟨0, ["Schemas directory not found!"], []⟩ :=
  rfl

theorem isPrefixOf_self_append : ∀ l r : List Char, l.isPrefixOf (l ++ r)
  | [], _ => by simp [List.isPrefixOf]
  | a :: l, r => by simp [List.isPrefixOf, isPrefixOf_self_append l r]

theorem globMatch_append (t : String) :
    globMatch (t ++ "_schema.json") = true := by
  unfold globMatch
  have hdata : (t ++ "_schema.json").data = t.data ++ "_schema.json".data :=
    rfl
  rw [hdata, List.reverse_append]
  exact isPrefixOf_self_append _ _

theorem mem_insortName (a n : String) :
    ∀ l, a ∈ sortNames.insortName n l ↔ a = n ∨ a ∈ l := by
  intro l
  induction l with
  | nil => simp [sortNames.insortName]
  | cons m ms ih =>
    by_cases h : n ≤ m
    · simp [sortNames.insortName, h]
    · simp only [sortNames.insortName, if_neg h, List.mem_cons, ih]
      tauto

theorem mem_sortNames (a : String) : ∀ l, a ∈ sortNames l ↔ a ∈ l := by
  intro l
  induction l with
  | nil => simp [sortNames]
  | cons n ns ih => simp [sortNames, mem_insortName, ih]

theorem pairwise_insortName (n : String) :
    ∀ l, List.Pairwise (· ≤ ·) l →
      List.Pairwise (· ≤ ·) (sortNames.insortName n l)
  | [], _ => by simp [sortNames.insortName]
  | m :: ms, hp => by
    cases hp with
    | cons hm hms =>
      by_cases h : n ≤ m
      · simp only [sortNames.insortName, if_pos h]
        refine List.Pairwise.cons ?_ (List.Pairwise.cons hm hms)
        intro x hx
        rcases List.mem_cons.mp hx with rfl | hx
        · exact h
        · exact le_trans h (hm x hx)
      · simp only [sortNames.insortName, if_neg h]
        refine List.Pairwise.cons ?_ (pairwise_insortName n ms hms)
        intro x hx
        rcases (mem_insortName x n ms).mp hx with rfl | hx
        · exact le_of_not_le h
        · exact hm x hx

theorem sorted_sortNames : ∀ l, List.Pairwise (· ≤ ·) (sortNames l)
  | [] => by simp [sortNames]
  | n :: ns => pairwise_insortName n (sortNames ns) (sorted_sortNames ns)

/-- C10: the filename `save_schema` writes (`tool_name` followed by
`_schema.json`) matches the `*_schema.json` pattern the reporter globs
for, so after saving any record the reporter run over the same directory
summarizes a file with exactly that name, and the filenames it
summarizes are sorted. -/
theorem save_schema_report_consistency (fs : SchemaDir) (t : String)
    (j : JsonVal) :
    globMatch (t ++ "_schema.json") = true ∧
      (t ++ "_schema.json") ∈
        (reporterMain ⟨true, save_schema fs t j⟩).reports.map (·.1) ∧
      List.Pairwise (· ≤ ·)
        ((reporterMain ⟨true, save_schema fs t j⟩).reports.map (·.1)) := by
  have hglob := globMatch_append t
  have hmem0 : (t ++ "_schema.json") ∈ (save_schema fs t j).map (·.1) :=
    name_mem_writeFile fs (t ++ "_schema.json") j
  have hmemf : (t ++ "_schema.json") ∈
      ((save_schema fs t j).map (·.1)).filter globMatch :=
    List.mem_filter.mpr ⟨hmem0, hglob⟩
  have hne : ¬(((save_schema fs t j).map (·.1)).filter globMatch).isEmpty =
      true := by
    intro h
    rw [List.isEmpty_iff] at h
    rw [h] at hmemf
    exact (List.not_mem_nil _) hmemf
  have hrep : (reporterMain ⟨true, save_schema fs t j⟩).reports =
      (sortNames (((save_schema fs t j).map (·.1)).filter globMatch)).map
        (fun n => (n, examine_schema_file (readFile (save_schema fs t j) n))) := by
    simp only [reporterMain]
    rw [if_neg (by simp), if_neg hne]
  refine ⟨hglob, ?_, ?_⟩
  · rw [hrep]
    simp only [List.map_map, Function.comp_def, List.map_id']
    exact (mem_sortNames _ _).mpr hmemf
  · rw [hrep]
    simp only [List.map_map, Function.comp_def, List.map_id']
    exact sorted_sortNames _
